import Mathlib

/-
Verification of the per-account task store and render dispatcher of the
soroban-render todo contract (src/contracts/todo/src/lib.rs).

Shallow embedding conventions:
- Soroban `Address` is modelled as `Nat`.
- Soroban `String` and `Bytes` are modelled as `List Nat` (byte values).
- `Map<u32, Task>` is modelled as an association list `List (Nat × Task)`.
  `mapSet` replaces an existing key in place and appends fresh keys at the
  end; since the contract only ever inserts strictly increasing ids per
  account, this matches the key-ordered iteration of the Soroban map on
  every reachable state.
- Persistent storage is a record with one field per `DataKey` family;
  `get(..).unwrap_or(default)` becomes an association-list lookup with the
  same default.
- `caller.require_auth()` is modelled by an authorization predicate
  `auth : Address → Bool` passed to each entry point; a failed check (and
  any panic, such as the 256-byte buffer overflow in `string_to_bytes`)
  makes the call return `none`, i.e. the call aborts without producing a
  new state.
-/

set_option maxRecDepth 100000

namespace Todo

abbrev Address := Nat

/-- Byte strings (Soroban `String` / `Bytes` contents). -/
abbrev Str := List Nat

/-- ASCII bytes of a Lean string literal. -/
def bs (s : String) : List Nat := s.data.map Char.toNat

/-- The contract's `Task` struct. -/
structure Task where
  id : Nat
  description : Str
  completed : Bool
  owner : Address
  deriving DecidableEq, Repr

/-- `Map<u32, Task>.get`. -/
def mapGet (m : List (Nat × Task)) (k : Nat) : Option Task :=
  match m with
  | [] => none
  | (k', v) :: rest => if k' = k then some v else mapGet rest k

/-- `Map<u32, Task>.set`: replace the entry for `k` if present, otherwise
add one (the contract always adds with a fresh, strictly larger id). -/
def mapSet (m : List (Nat × Task)) (k : Nat) (v : Task) : List (Nat × Task) :=
  match m with
  | [] => [(k, v)]
  | (k', v') :: rest => if k' = k then (k, v) :: rest else (k', v') :: mapSet rest k v

/-- `Map<u32, Task>.remove`. -/
def mapRemove (m : List (Nat × Task)) (k : Nat) : List (Nat × Task) :=
  match m with
  | [] => []
  | (k', v') :: rest => if k' = k then rest else (k', v') :: mapRemove rest k

/-- Lookup in an address-keyed storage family. -/
def alookup {α : Type} (l : List (Address × α)) (a : Address) : Option α :=
  match l with
  | [] => none
  | (a', x) :: rest => if a' = a then some x else alookup rest a

/-- Write to an address-keyed storage family. -/
def aset {α : Type} (l : List (Address × α)) (a : Address) (x : α) : List (Address × α) :=
  match l with
  | [] => [(a, x)]
  | (a', x') :: rest => if a' = a then (a, x) :: rest else (a', x') :: aset rest a x

/-- Persistent contract storage, one field per `DataKey` family. -/
structure Storage where
  tasks : List (Address × List (Nat × Task))
  nextIds : List (Address × Nat)
  userCount : Nat
  totalTasks : Nat
  hasFlags : List (Address × Bool)
  deriving DecidableEq, Repr

/-- `DataKey::Tasks(a)` read, `unwrap_or(Map::new(..))`. -/
def tasksOf (st : Storage) (a : Address) : List (Nat × Task) :=
  (alookup st.tasks a).getD []

/-- `DataKey::NextId(a)` read, `unwrap_or(1)`. -/
def nextIdOf (st : Storage) (a : Address) : Nat :=
  (alookup st.nextIds a).getD 1

/-- `DataKey::HasTasks(a)` read, `unwrap_or(false)`. -/
def hasTasksOf (st : Storage) (a : Address) : Bool :=
  (alookup st.hasFlags a).getD false

/-- The empty (never written) storage. -/
def initStorage : Storage :=
  { tasks := [], nextIds := [], userCount := 0, totalTasks := 0, hasFlags := [] }

/-- `TodoContract::add_task`. -/
def add_task (auth : Address → Bool) (description : Str) (caller : Address)
    (st : Storage) : Option (Nat × Storage) :=
  if auth caller then
    let tasks := tasksOf st caller
    let next_id := nextIdOf st caller
    let task : Task := { id := next_id, description := description, completed := false, owner := caller }
    let tasks' := mapSet tasks next_id task
    let st1 : Storage :=
      { st with
        tasks := aset st.tasks caller tasks',
        nextIds := aset st.nextIds caller (next_id + 1),
        totalTasks := st.totalTasks + 1 }
    let st2 : Storage :=
      if hasTasksOf st caller then st1
      else { st1 with hasFlags := aset st1.hasFlags caller true, userCount := st1.userCount + 1 }
    some (next_id, st2)
  else none

/-- `TodoContract::complete_task`. -/
def complete_task (auth : Address → Bool) (id : Nat) (caller : Address)
    (st : Storage) : Option (Unit × Storage) :=
  if auth caller then
    let tasks := tasksOf st caller
    match mapGet tasks id with
    | some task =>
      some ((), { st with tasks := aset st.tasks caller (mapSet tasks id { task with completed := true }) })
    | none => some ((), st)
  else none

/-- `TodoContract::delete_task`. -/
def delete_task (auth : Address → Bool) (id : Nat) (caller : Address)
    (st : Storage) : Option (Unit × Storage) :=
  if auth caller then
    let tasks := tasksOf st caller
    if (mapGet tasks id).isSome then
      let st1 : Storage := { st with tasks := aset st.tasks caller (mapRemove tasks id) }
      let st2 : Storage :=
        if 0 < st1.totalTasks then { st1 with totalTasks := st1.totalTasks - 1 } else st1
      some ((), st2)
    else some ((), st)
  else none

/-- `TodoContract::get_task`. -/
def get_task (st : Storage) (id : Nat) (user : Address) : Option Task :=
  mapGet (tasksOf st user) id

/-- `TodoContract::get_tasks` (values of the user's map, in order). -/
def get_tasks (st : Storage) (user : Address) : List Task :=
  (tasksOf st user).map Prod.snd

/-- `TodoContract::get_stats`. -/
def get_stats (st : Storage) : Nat × Nat :=
  (st.totalTasks, st.userCount)

/-- One mutating entry-point invocation. -/
inductive Call where
  | add (description : Str) (caller : Address)
  | complete (id : Nat) (caller : Address)
  | delete (id : Nat) (caller : Address)

/-- Effect of one call on storage; an aborted call (failed auth) leaves
storage unchanged. -/
def step (auth : Address → Bool) (st : Storage) (c : Call) : Storage :=
  match c with
  | .add d caller =>
    match add_task auth d caller st with
    | some (_, st') => st'
    | none => st
  | .complete i caller =>
    match complete_task auth i caller st with
    | some (_, st') => st'
    | none => st
  | .delete i caller =>
    match delete_task auth i caller st with
    | some (_, st') => st'
    | none => st

/-- Run a sequence of calls from the empty storage. -/
def runTrace (auth : Address → Bool) (tr : List Call) : Storage :=
  tr.foldl (step auth) initStorage

/-- Sum over all accounts of the size of that account's task collection. -/
def sumSizes (l : List (Address × List (Nat × Task))) : Nat :=
  (l.map (fun p => p.2.length)).sum

/-- `TodoContract::string_to_bytes`: copies the string through a fixed
256-byte buffer; a longer string makes the slice index `buf[..len]` panic,
i.e. the call aborts. -/
def string_to_bytes (s : Str) : Option (List Nat) :=
  if s.length ≤ 256 then some s else none

/-- `TodoContract::concat_bytes`. -/
def concat_bytes (parts : List (List Nat)) : List Nat :=
  match parts with
  | [] => []
  | p :: rest => p ++ concat_bytes rest

/-- Digit-collection loop of `TodoContract::u32_to_bytes`; the source
writes into a fixed `[u8; 10]` array (10 digits suffice for any `u32`),
modelled by the fuel argument. Digits come out least significant first. -/
def u32_digits (fuel : Nat) (n : Nat) : List Nat :=
  match fuel with
  | 0 => []
  | f + 1 => if n = 0 then [] else (48 + n % 10) :: u32_digits f (n / 10)

/-- `TodoContract::u32_to_bytes`: decimal ASCII, `0` rendered as "0". -/
def u32_to_bytes (n : Nat) : List Nat :=
  if n = 0 then bs "0" else (u32_digits 10 n).reverse

/-- Byte-escaping loop of `TodoContract::escape_json_string`. -/
def escape_loop (l : List Nat) : List Nat :=
  match l with
  | [] => []
  | b :: rest =>
    (if b = 34 then [92, 34]
     else if b = 92 then [92, 92]
     else if b = 10 then [92, 110]
     else if b = 13 then [92, 114]
     else if b = 9 then [92, 116]
     else [b]) ++ escape_loop rest

/-- `TodoContract::escape_json_string` (goes through `string_to_bytes`,
so it aborts on descriptions longer than 256 bytes). -/
def escape_json_string (s : Str) : Option (List Nat) :=
  match string_to_bytes s with
  | none => none
  | some bytes => some (escape_loop bytes)

/-- The `{{include ...}}` header directive pushed by every markdown view. -/
def header_include : List Nat :=
  bs "\x7b\x7binclude contract=CCYEOY2JTOQ2JIMLLERAFNHAVKEKMEJDBOTLN6DIIWBHWEIMUA2T2VY4 func=\"header\"\x7d\x7d\n"

/-- The `{{include ...}}` footer directive pushed by every markdown view. -/
def footer_include : List Nat :=
  bs "\x7b\x7binclude contract=CCYEOY2JTOQ2JIMLLERAFNHAVKEKMEJDBOTLN6DIIWBHWEIMUA2T2VY4 func=\"footer\"\x7d\x7d"

/-- The navigation line pushed by the markdown views. -/
def nav_links : List Nat :=
  bs "[Home](render:/) | [Tasks](render:/tasks) | [About](render:/about)\n\n"

/-- `TodoContract::render_home`. -/
def render_home (wallet_connected : Bool) : List Nat :=
  concat_bytes
    ([ header_include,
       nav_links,
       bs "---\n\n",
       bs "## Welcome to the Soroban Render Demo\n\n",
       bs "This is a **fully functional todo application** where the entire user interface is defined by the smart contract itself.\n\n",
       bs "> [!TIP]\n> This entire UI is generated by the smart contract\x27s \x60render()\x60 function. The markdown you see, including this callout, comes directly from the blockchain!\n\n",
       bs "### What makes this special?\n\n",
       bs "- **Self-contained UI**: The contract\x27s \x60render()\x60 function returns this markdown you\x27re reading\n",
       bs "- **Interactive elements**: Forms and buttons trigger real blockchain transactions\n",
       bs "- **Per-user storage**: Each wallet has its own private task list\n",
       bs "- **Composability**: This app includes header/footer components from a separate theme contract\n\n" ] ++
     (if wallet_connected then
       [ bs "> [!NOTE]\n> Your wallet is connected! You\x27re ready to create and manage tasks.\n\n",
         bs "### Get Started\n\n",
         bs "Head over to [Tasks](render:/tasks) to manage your todo list.\n\n" ]
      else
       [ bs "> [!WARNING]\n> Connect your wallet (button in top-right) to create and manage your personal todo list.\n\n",
         bs "### Get Started\n\n",
         bs "Each user has their own private task list stored on the blockchain.\n\n" ]) ++
     [ footer_include ])

/-- `TodoContract::render_about` (reads the global counters). -/
def render_about (st : Storage) : List Nat :=
  concat_bytes
    [ header_include,
      nav_links,
      bs "---\n\n",
      bs "## About Soroban Render\n\n",
      bs "Soroban Render is a community convention for building **self-contained, renderable dApps** on Stellar\x27s Soroban smart contract platform.\n\n",
      bs "> [!INFO]\n> Inspired by [Gno.land\x27s Render() function](https://docs.gno.land/users/explore-with-gnoweb/#viewing-rendered-content), Soroban Render allows smart contracts to define their own user interface.\n\n",
      bs "### Live Stats\n\n",
      bs ":::columns\n",
      bs "**Total Tasks**\n\n",
      bs "# ",
      u32_to_bytes st.totalTasks,
      bs "\n\ntasks stored on-chain\n",
      bs "|||\n",
      bs "**Unique Users**\n\n",
      bs "# ",
      u32_to_bytes st.userCount,
      bs "\n\nwallets with tasks\n",
      bs ":::\n\n",
      bs "### How It Works\n\n",
      bs ":::columns\n",
      bs "**1. Contract Renders UI**\n\nThe \x60render(path, viewer)\x60 function returns markdown or JSON describing the interface.\n",
      bs "|||\n",
      bs "**2. Special Protocols**\n\n\x60render:\x60 for navigation, \x60tx:\x60 for transactions, \x60form:\x60 for form submissions.\n",
      bs "|||\n",
      bs "**3. Universal Viewer**\n\nAny contract implementing \x60render()\x60 can be viewed with the same generic viewer.\n",
      bs ":::\n\n",
      bs "### Learn More\n\n",
      bs "- [View the source code on GitHub](https://github.com/wyhaines/soroban-render)\n",
      bs "- [Soroban Documentation](https://soroban.stellar.org/docs)\n",
      bs "- [Stellar Developer Portal](https://developers.stellar.org)\n\n",
      footer_include ]

/-- Completion filter applied inside the task loops (`continue` on a
non-matching task). -/
def matchesF (filter : Option Bool) (t : Task) : Bool :=
  match filter with
  | some completed_filter => t.completed == completed_filter
  | none => true

/-- One markdown task line of `TodoContract::render_task_list`. -/
def task_line (t : Task) : Option (List Nat) :=
  match string_to_bytes t.description with
  | none => none
  | some desc =>
    some (bs "- " ++ (if t.completed then bs "[x]" else bs "[ ]") ++ bs " " ++
      (if t.completed then bs "~~" ++ desc ++ bs "~~" else desc) ++
      bs " (#" ++ u32_to_bytes t.id ++ bs ") " ++
      (if !t.completed then bs "[Done](tx:complete_task \x7b\"id\":" ++ u32_to_bytes t.id ++ bs "\x7d) " else []) ++
      bs "[Delete](tx:delete_task \x7b\"id\":" ++ u32_to_bytes t.id ++ bs "\x7d)\n")

/-- The task iteration of `TodoContract::render_task_list`: skips tasks
rejected by the filter, emits one line per shown task, and tracks the
`has_tasks` flag (true iff at least one task was emitted). -/
def task_loop (l : List (Nat × Task)) (filter : Option Bool) : Option (List Nat × Bool) :=
  match l with
  | [] => some ([], false)
  | (_, t) :: rest =>
    if matchesF filter t then
      match task_line t with
      | none => none
      | some line =>
        match task_loop rest filter with
        | none => none
        | some (out, _) => some (line ++ out, true)
    else task_loop rest filter

/-- `TodoContract::render_task_list`. -/
def render_task_list (tasks : List (Nat × Task)) (filter : Option Bool)
    (wallet_connected : Bool) : Option (List Nat) :=
  if wallet_connected then
    match task_loop tasks filter with
    | none => none
    | some (body, has_tasks) =>
      some (concat_bytes
        [ header_include,
          nav_links,
          bs "---\n\n",
          bs "## Add Task\n\n",
          bs "<textarea name=\"description\" rows=\"2\" placeholder=\"What needs to be done?\"></textarea>\n\n",
          bs "[Add Task](form:add_task)\n\n",
          bs "## Filter\n\n",
          bs "[All](render:/tasks) | [Pending](render:/tasks/pending) | [Completed](render:/tasks/completed)\n\n",
          bs "## Your Tasks\n\n",
          body,
          (if !has_tasks then
            (if filter.isSome then bs "*No matching tasks.*\n\n" else bs "*No tasks yet. Add one above!*\n\n")
           else []),
          footer_include ])
  else
    some (concat_bytes
      [ header_include,
        nav_links,
        bs "---\n\n",
        bs "## Connect Your Wallet\n\n",
        bs "**Please connect your wallet** to view and manage your personal todo list.\n\n",
        bs "Each user has their own private task list that only they can see and modify.\n\n",
        footer_include ])

/-- `TodoContract::render_single_task`. -/
def render_single_task (tasks : List (Nat × Task)) (id : Nat) : Option (List Nat) :=
  match mapGet tasks id with
  | some task =>
    match string_to_bytes task.description with
    | none => none
    | some desc =>
      some (concat_bytes
        [ bs "# Task Details\n\n",
          bs "**ID:** ", u32_to_bytes task.id, bs "\n\n",
          bs "**Description:** ", desc, bs "\n\n",
          bs "**Status:** ", (if task.completed then bs "Completed" else bs "Pending"), bs "\n\n",
          (if !task.completed then bs "[Mark Complete](tx:complete_task \x7b\"id\":" ++ u32_to_bytes task.id ++ bs "\x7d) | " else []),
          bs "[Delete](tx:delete_task \x7b\"id\":", u32_to_bytes task.id, bs "\x7d)\n\n",
          bs "[Back to list](render:/)\n" ])
  | none =>
    some (concat_bytes
      [ bs "# Task Details\n\n",
        bs "*Task not found*\n\n[Back to list](render:/)\n" ])

/-- One JSON `task` component of `TodoContract::render_json`. -/
def json_task_component (t : Task) : Option (List Nat) :=
  match escape_json_string t.description with
  | none => none
  | some esc =>
    some (bs "\x7b\"type\":\"task\",\"id\":" ++ u32_to_bytes t.id ++
      bs ",\"text\":\"" ++ esc ++ bs "\",\"completed\":" ++
      (if t.completed then bs "true" else bs "false") ++
      bs ",\"actions\":[" ++
      (if !t.completed then
        bs "\x7b\"type\":\"tx\",\"method\":\"complete_task\",\"args\":\x7b\"id\":" ++ u32_to_bytes t.id ++
        bs "\x7d,\"label\":\"Done\"\x7d,"
       else []) ++
      bs "\x7b\"type\":\"tx\",\"method\":\"delete_task\",\"args\":\x7b\"id\":" ++ u32_to_bytes t.id ++
      bs "\x7d,\"label\":\"Delete\"\x7d" ++
      bs "]\x7d")

/-- The task iteration of `TodoContract::render_json`: a comma before
every component except the first, returning the final `task_count`. -/
def json_task_loop (l : List (Nat × Task)) (filter : Option Bool) (count : Nat) :
    Option (List Nat × Nat) :=
  match l with
  | [] => some ([], count)
  | (_, t) :: rest =>
    if matchesF filter t then
      match json_task_component t with
      | none => none
      | some comp =>
        match json_task_loop rest filter (count + 1) with
        | none => none
        | some (out, final) =>
          some ((if 0 < count then bs "," else []) ++ comp ++ out, final)
    else json_task_loop rest filter count

/-- `TodoContract::render_json`. -/
def render_json (tasks : List (Nat × Task)) (subpath : Option (List Nat))
    (wallet_connected : Bool) : Option (List Nat) :=
  let filter : Option Bool :=
    match subpath with
    | some sp =>
      if sp = bs "/pending" then some false
      else if sp = bs "/completed" then some true
      else none
    | none => none
  if wallet_connected then
    let completed_count := (tasks.filter (fun p => p.2.completed)).length
    let pending_count := (tasks.filter (fun p => !p.2.completed)).length
    match json_task_loop tasks filter 0 with
    | none => none
    | some (body, task_count) =>
      some (concat_bytes
        [ bs "\x7b\"format\":\"soroban-render-json-v1\",\"title\":\"Todo List\",\"components\":[",
          bs "\x7b\"type\":\"heading\",\"level\":1,\"text\":\"Todo List\"\x7d,",
          bs "\x7b\"type\":\"form\",\"action\":\"add_task\",\"fields\":[\x7b\"name\":\"description\",\"type\":\"text\",\"placeholder\":\"Enter task description\",\"required\":true\x7d],\"submitLabel\":\"Add Task\"\x7d,",
          bs "\x7b\"type\":\"navigation\",\"items\":[",
          bs "\x7b\"label\":\"All\",\"path\":\"/json\"",
          (if filter = none then bs ",\"active\":true" else []),
          bs "\x7d,",
          bs "\x7b\"label\":\"Pending\",\"path\":\"/json/pending\"",
          (if filter = some false then bs ",\"active\":true" else []),
          bs "\x7d,",
          bs "\x7b\"label\":\"Completed\",\"path\":\"/json/completed\"",
          (if filter = some true then bs ",\"active\":true" else []),
          bs "\x7d]\x7d,",
          (if 0 < completed_count ∨ 0 < pending_count then
            concat_bytes
              [ bs "\x7b\"type\":\"chart\",\"chartType\":\"pie\",\"title\":\"Task Status\",\"data\":[",
                bs "\x7b\"label\":\"Completed\",\"value\":", u32_to_bytes completed_count,
                bs ",\"color\":\"#22c55e\"\x7d,",
                bs "\x7b\"label\":\"Pending\",\"value\":", u32_to_bytes pending_count,
                bs ",\"color\":\"#eab308\"\x7d",
                bs "]\x7d," ]
           else []),
          bs "\x7b\"type\":\"heading\",\"level\":2,\"text\":\"Your Tasks\"\x7d,",
          bs "\x7b\"type\":\"container\",\"className\":\"task-list\",\"components\":[",
          body,
          (if task_count = 0 then
            (if filter.isSome then bs "\x7b\"type\":\"text\",\"content\":\"No matching tasks.\"\x7d"
             else bs "\x7b\"type\":\"text\",\"content\":\"No tasks yet. Add one above!\"\x7d")
           else []),
          bs "]\x7d,",
          bs "\x7b\"type\":\"divider\"\x7d,",
          bs "\x7b\"type\":\"text\",\"content\":\"Powered by Soroban Render\"\x7d",
          bs "]\x7d" ])
  else
    some (concat_bytes
      [ bs "\x7b\"format\":\"soroban-render-json-v1\",\"title\":\"Todo List\",\"components\":[",
        bs "\x7b\"type\":\"heading\",\"level\":1,\"text\":\"Todo List\"\x7d,",
        bs "\x7b\"type\":\"heading\",\"level\":2,\"text\":\"Connect Your Wallet\"\x7d,",
        bs "\x7b\"type\":\"text\",\"content\":\"Please connect your wallet to view and manage your personal todo list.\"\x7d,",
        bs "\x7b\"type\":\"text\",\"content\":\"Each user has their own private task list that only they can see and modify.\"\x7d,",
        bs "\x7b\"type\":\"divider\"\x7d,",
        bs "\x7b\"type\":\"text\",\"content\":\"Powered by Soroban Render\"\x7d",
        bs "]\x7d" ])

/-- The viewer's task collection loaded at the top of `render` (empty when
no viewer is connected). -/
def viewer_tasks (st : Storage) (viewer : Option Address) : List (Nat × Task) :=
  match viewer with
  | some user => tasksOf st user
  | none => []

/-- Path-to-bytes step of `render`: an absent path defaults to "/", a
present one goes through `string_to_bytes`. -/
def path_to_bytes (path : Option Str) : Option (List Nat) :=
  match path with
  | some p => string_to_bytes p
  | none => some (bs "/")

/-- The `/json` route check: at least 5 bytes, first five equal "/json". -/
def isJsonPath (pb : List Nat) : Bool :=
  decide (5 ≤ pb.length ∧ pb.take 5 = bs "/json")

/-- The `/task/:id` route check: more than 6 bytes, first six equal
"/task/", and the seventh byte an ASCII digit. -/
def isTaskIdPath (pb : List Nat) : Bool :=
  decide (6 < pb.length ∧ pb.take 6 = bs "/task/" ∧
    48 ≤ (pb.get? 6).getD 0 ∧ (pb.get? 6).getD 0 ≤ 57)

/-- `TodoContract::render`. -/
def render (st : Storage) (path : Option Str) (viewer : Option Address) :
    Option (List Nat) :=
  let tasks := viewer_tasks st viewer
  match path_to_bytes path with
  | none => none
  | some path_bytes =>
    if isJsonPath path_bytes then
      let subpath := if 5 < path_bytes.length then some (path_bytes.drop 5) else none
      render_json tasks subpath viewer.isSome
    else if path_bytes = bs "/" then some (render_home viewer.isSome)
    else if path_bytes = bs "/about" then some (render_about st)
    else if path_bytes = bs "/tasks" then render_task_list tasks none viewer.isSome
    else if path_bytes = bs "/tasks/pending" ∨ path_bytes = bs "/pending" then
      render_task_list tasks (some false) viewer.isSome
    else if path_bytes = bs "/tasks/completed" ∨ path_bytes = bs "/completed" then
      render_task_list tasks (some true) viewer.isSome
    else if isTaskIdPath path_bytes then
      render_single_task tasks (((path_bytes.get? 6).getD 0) - 48)
    else some (render_home viewer.isSome)

/-- Union of the route patterns `render` recognizes; anything else falls
through to the default home view. -/
def routeMatches (pb : List Nat) : Bool :=
  isJsonPath pb || decide (pb = bs "/") || decide (pb = bs "/about") ||
  decide (pb = bs "/tasks") || decide (pb = bs "/tasks/pending") ||
  decide (pb = bs "/pending") || decide (pb = bs "/tasks/completed") ||
  decide (pb = bs "/completed") || isTaskIdPath pb


/-! ### Map and storage-family lemmas -/

theorem mapGet_mapSet_self (m : List (Nat × Task)) (k : Nat) (v : Task) :
    mapGet (mapSet m k v) k = some v := by
  induction m with
  | nil => simp [mapSet, mapGet]
  | cons p rest ih =>
    obtain ⟨k', v'⟩ := p
    by_cases h : k' = k
    · simp [mapSet, mapGet, h]
    · simp [mapSet, mapGet, h, ih]

theorem mapGet_mapSet_isSome (m : List (Nat × Task)) (k k' : Nat) (v : Task)
    (h : (mapGet (mapSet m k v) k').isSome = true) :
    k' = k ∨ (mapGet m k').isSome = true := by
  induction m with
  | nil =>
    simp [mapSet, mapGet] at h
    exact Or.inl h.symm
  | cons p rest ih =>
    obtain ⟨k0, v0⟩ := p
    by_cases hk : k0 = k
    · subst hk
      simp only [mapSet, if_pos rfl] at h
      simp only [mapGet] at h ⊢
      by_cases he : k0 = k'
      · exact Or.inl he.symm
      · rw [if_neg (fun hke : k0 = k' => he hke)] at h
        rw [if_neg he]
        exact Or.inr h
    · simp only [mapSet, if_neg hk] at h
      simp only [mapGet] at h ⊢
      by_cases he : k0 = k'
      · exact Or.inr (by simp [he])
      · rw [if_neg he] at h ⊢
        exact ih h

theorem length_mapSet (m : List (Nat × Task)) (k : Nat) (v : Task) :
    (mapSet m k v).length = if (mapGet m k).isSome then m.length else m.length + 1 := by
  induction m with
  | nil => simp [mapSet, mapGet]
  | cons p rest ih =>
    obtain ⟨k', v'⟩ := p
    by_cases h : k' = k
    · simp [mapSet, mapGet, h]
    · simp only [mapSet, if_neg h, List.length_cons, ih, mapGet, if_neg h]
      split <;> rfl

theorem length_mapRemove (m : List (Nat × Task)) (k : Nat)
    (h : (mapGet m k).isSome = true) :
    (mapRemove m k).length + 1 = m.length := by
  induction m with
  | nil => simp [mapGet] at h
  | cons p rest ih =>
    obtain ⟨k', v'⟩ := p
    by_cases hk : k' = k
    · simp [mapRemove, hk]
    · simp only [mapGet, if_neg hk] at h
      simp [mapRemove, hk, ih h]

theorem mapGet_mapRemove_isSome (m : List (Nat × Task)) (k k' : Nat)
    (h : (mapGet (mapRemove m k) k').isSome = true) :
    (mapGet m k').isSome = true := by
  induction m with
  | nil => simp [mapRemove, mapGet] at h
  | cons p rest ih =>
    obtain ⟨k0, v0⟩ := p
    by_cases hk : k0 = k
    · subst hk
      simp only [mapRemove, if_pos rfl] at h
      simp only [mapGet]
      by_cases he : k0 = k'
      · simp [he]
      · rw [if_neg he]
        exact h
    · simp only [mapRemove, if_neg hk] at h
      simp only [mapGet] at h ⊢
      by_cases he : k0 = k'
      · simp [he]
      · rw [if_neg he] at h ⊢
        exact ih h

theorem mapGet_isSome_length (m : List (Nat × Task)) (k : Nat)
    (h : (mapGet m k).isSome = true) : 1 ≤ m.length := by
  cases m with
  | nil => simp [mapGet] at h
  | cons p rest => simp

theorem alookup_aset_self {α : Type} (l : List (Address × α)) (a : Address) (x : α) :
    alookup (aset l a x) a = some x := by
  induction l with
  | nil => simp [aset, alookup]
  | cons p rest ih =>
    obtain ⟨a', x'⟩ := p
    by_cases h : a' = a
    · simp [aset, alookup, h]
    · simp [aset, alookup, h, ih]

theorem alookup_aset_ne {α : Type} (l : List (Address × α)) (a b : Address) (x : α)
    (h : a ≠ b) : alookup (aset l a x) b = alookup l b := by
  induction l with
  | nil => simp [aset, alookup, h]
  | cons p rest ih =>
    obtain ⟨a', x'⟩ := p
    by_cases h' : a' = a
    · subst h'
      simp [aset, alookup, h, ih]
    · simp only [aset, if_neg h', alookup]
      split <;> simp [ih]

theorem sumSizes_aset (l : List (Address × List (Nat × Task))) (a : Address)
    (m : List (Nat × Task)) :
    sumSizes (aset l a m) + ((alookup l a).getD []).length = sumSizes l + m.length := by
  induction l with
  | nil => simp [aset, alookup, sumSizes]
  | cons p rest ih =>
    obtain ⟨a', m'⟩ := p
    by_cases h : a' = a
    · simp only [aset, if_pos h, alookup, if_pos h, sumSizes, List.map_cons, List.sum_cons,
        Option.getD_some]
      simp only [sumSizes] at ih
      omega
    · simp only [aset, if_neg h, alookup, if_neg h, sumSizes, List.map_cons, List.sum_cons]
      simp only [sumSizes] at ih
      omega

theorem alookup_length_le_sumSizes (l : List (Address × List (Nat × Task))) (a : Address) :
    ((alookup l a).getD []).length ≤ sumSizes l := by
  induction l with
  | nil => simp [alookup, sumSizes]
  | cons p rest ih =>
    obtain ⟨a', m'⟩ := p
    simp only [alookup, sumSizes, List.map_cons, List.sum_cons]
    split
    · simp
    · simp only [sumSizes] at ih
      omega

/-! ### The global counter invariant -/

/-- `total_tasks` equals the sum of all per-account collection sizes. -/
def counterInv (st : Storage) : Prop :=
  st.totalTasks = sumSizes st.tasks

/-- Every id stored in an account's collection is below that account's
next-id counter (ids are handed out increasing, never reused). -/
def idsInv (st : Storage) : Prop :=
  ∀ a k, (mapGet (tasksOf st a) k).isSome = true → k < nextIdOf st a

/-- What a successful `add_task` does to the storage fields. -/
theorem add_task_spec (auth : Address → Bool) (d : Str) (c : Address) (st : Storage)
    (h : auth c = true) :
    ∃ st', add_task auth d c st = some (nextIdOf st c, st') ∧
      st'.tasks = aset st.tasks c
        (mapSet (tasksOf st c) (nextIdOf st c)
          { id := nextIdOf st c, description := d, completed := false, owner := c }) ∧
      st'.nextIds = aset st.nextIds c (nextIdOf st c + 1) ∧
      st'.totalTasks = st.totalTasks + 1 ∧
      st'.userCount = (if hasTasksOf st c then st.userCount else st.userCount + 1) ∧
      st'.hasFlags = (if hasTasksOf st c then st.hasFlags else aset st.hasFlags c true) := by
  cases hf : hasTasksOf st c
  · refine ⟨{ tasks := aset st.tasks c (mapSet (tasksOf st c) (nextIdOf st c) { id := nextIdOf st c, description := d, completed := false, owner := c }), nextIds := aset st.nextIds c (nextIdOf st c + 1), userCount := st.userCount + 1, totalTasks := st.totalTasks + 1, hasFlags := aset st.hasFlags c true }, ?_, rfl, rfl, rfl, by simp, by simp⟩
    simp [add_task, h, hf]
  · refine ⟨{ tasks := aset st.tasks c (mapSet (tasksOf st c) (nextIdOf st c) { id := nextIdOf st c, description := d, completed := false, owner := c }), nextIds := aset st.nextIds c (nextIdOf st c + 1), userCount := st.userCount, totalTasks := st.totalTasks + 1, hasFlags := st.hasFlags }, ?_, rfl, rfl, rfl, by simp, by simp⟩
    simp [add_task, h, hf]

theorem counterInv_step (auth : Address → Bool) (st : Storage) (c : Call)
    (h1 : counterInv st) (h2 : idsInv st) :
    counterInv (step auth st c) ∧ idsInv (step auth st c) := by
  cases c with
  | add d caller =>
    cases ha : auth caller with
    | false => simpa [step, add_task, ha] using ⟨h1, h2⟩
    | true =>
      obtain ⟨st', heq, htasks, hnext, htot, huc, hhf⟩ := add_task_spec auth d caller st ha
      have hstep : step auth st (Call.add d caller) = st' := by
        simp [step, heq]
      rw [hstep]
      have hfresh : (mapGet (tasksOf st caller) (nextIdOf st caller)).isSome = false := by
        cases hg : (mapGet (tasksOf st caller) (nextIdOf st caller)).isSome
        · rfl
        · exact absurd (h2 caller (nextIdOf st caller) hg) (by omega)
      constructor
      · have hsum := sumSizes_aset st.tasks caller
          (mapSet (tasksOf st caller) (nextIdOf st caller)
            { id := nextIdOf st caller, description := d, completed := false, owner := caller })
        have hlen := length_mapSet (tasksOf st caller) (nextIdOf st caller)
          { id := nextIdOf st caller, description := d, completed := false, owner := caller }
        rw [hfresh] at hlen
        simp only [Bool.false_eq_true, if_false] at hlen
        unfold counterInv at h1 ⊢
        rw [htasks, htot]
        unfold tasksOf at hsum hlen ⊢
        omega
      · intro a k hk
        unfold tasksOf at hk
        rw [htasks] at hk
        have hn : nextIdOf st' a =
            (alookup (aset st.nextIds caller (nextIdOf st caller + 1)) a).getD 1 := by
          unfold nextIdOf
          rw [hnext]
          rfl
        by_cases hac : a = caller
        · subst hac
          rw [alookup_aset_self] at hk
          simp only [Option.getD_some] at hk
          rw [hn, alookup_aset_self]
          simp only [Option.getD_some]
          rcases mapGet_mapSet_isSome _ _ _ _ hk with hek | hsome
          · omega
          · have := h2 a k (by unfold tasksOf; exact hsome)
            omega
        · rw [alookup_aset_ne _ _ _ _ (fun he => hac he.symm)] at hk
          rw [hn, alookup_aset_ne _ _ _ _ (fun he => hac he.symm)]
          exact h2 a k hk
  | complete i caller =>
    cases ha : auth caller with
    | false => simpa [step, complete_task, ha] using ⟨h1, h2⟩
    | true =>
      cases hg : mapGet (tasksOf st caller) i with
      | none => simpa [step, complete_task, ha, hg] using ⟨h1, h2⟩
      | some t =>
        have hstep : step auth st (Call.complete i caller) = { st with tasks := aset st.tasks caller (mapSet (tasksOf st caller) i { t with completed := true }) } := by
          simp [step, complete_task, ha, hg]
        rw [hstep]
        constructor
        · have hsum := sumSizes_aset st.tasks caller
            (mapSet (tasksOf st caller) i { t with completed := true })
          have hlen := length_mapSet (tasksOf st caller) i { t with completed := true }
          rw [hg] at hlen
          simp only [Option.isSome_some, if_true] at hlen
          unfold counterInv at h1 ⊢
          show st.totalTasks = sumSizes (aset st.tasks caller
            (mapSet (tasksOf st caller) i { t with completed := true }))
          unfold tasksOf at hsum hlen ⊢
          omega
        · intro a k hk
          have hk' : (mapGet ((alookup (aset st.tasks caller
              (mapSet (tasksOf st caller) i { t with completed := true })) a).getD []) k).isSome = true := hk
          show k < (alookup st.nextIds a).getD 1
          by_cases hac : a = caller
          · subst hac
            rw [alookup_aset_self] at hk'
            simp only [Option.getD_some] at hk'
            rcases mapGet_mapSet_isSome _ _ _ _ hk' with hek | hsome
            · subst hek
              exact h2 a k (by rw [hg]; rfl)
            · exact h2 a k hsome
          · rw [alookup_aset_ne _ _ _ _ (fun he => hac he.symm)] at hk'
            exact h2 a k hk'
  | delete i caller =>
    cases ha : auth caller with
    | false => simpa [step, delete_task, ha] using ⟨h1, h2⟩
    | true =>
      cases hg : (mapGet (tasksOf st caller) i).isSome with
      | false => simpa [step, delete_task, ha, hg] using ⟨h1, h2⟩
      | true =>
        have hlen := length_mapRemove (tasksOf st caller) i hg
        have hone := mapGet_isSome_length (tasksOf st caller) i hg
        have hle := alookup_length_le_sumSizes st.tasks caller
        have hpos : 0 < st.totalTasks := by
          unfold counterInv at h1
          unfold tasksOf at hone hle
          omega
        have hstep : step auth st (Call.delete i caller) = { st with tasks := aset st.tasks caller (mapRemove (tasksOf st caller) i), totalTasks := st.totalTasks - 1 } := by
          simp [step, delete_task, ha, hg, hpos]
        rw [hstep]
        constructor
        · have hsum := sumSizes_aset st.tasks caller (mapRemove (tasksOf st caller) i)
          unfold counterInv at h1 ⊢
          show st.totalTasks - 1 = sumSizes (aset st.tasks caller
            (mapRemove (tasksOf st caller) i))
          unfold tasksOf at hsum hlen hone ⊢
          omega
        · intro a k hk
          have hk' : (mapGet ((alookup (aset st.tasks caller
              (mapRemove (tasksOf st caller) i)) a).getD []) k).isSome = true := hk
          show k < (alookup st.nextIds a).getD 1
          by_cases hac : a = caller
          · subst hac
            rw [alookup_aset_self] at hk'
            simp only [Option.getD_some] at hk'
            exact h2 a k (mapGet_mapRemove_isSome _ _ _ hk')
          · rw [alookup_aset_ne _ _ _ _ (fun he => hac he.symm)] at hk'
            exact h2 a k hk'

theorem inv_runTrace (auth : Address → Bool) (tr : List Call) :
    counterInv (runTrace auth tr) ∧ idsInv (runTrace auth tr) := by
  suffices h : ∀ st, counterInv st → idsInv st →
      counterInv (tr.foldl (step auth) st) ∧ idsInv (tr.foldl (step auth) st) by
    apply h
    · rfl
    · intro a k hk
      simp [tasksOf, alookup, mapGet, initStorage] at hk
  induction tr with
  | nil => exact fun st h1 h2 => ⟨h1, h2⟩
  | cons c rest ih =>
    intro st h1 h2
    obtain ⟨h1', h2'⟩ := counterInv_step auth st c h1 h2
    exact ih (step auth st c) h1' h2'

/-! ### Render-side lemmas -/

/-- Sequence of markdown lines for a list of tasks (`none` as soon as one
description overflows the 256-byte buffer). -/
def lines_of (ts : List Task) : Option (List (List Nat)) :=
  match ts with
  | [] => some []
  | t :: rest =>
    match task_line t, lines_of rest with
    | some line, some ls => some (line :: ls)
    | _, _ => none

/-- The tasks the pending filter keeps: exactly the incomplete ones. -/
def pending_tasks (l : List (Nat × Task)) : List Task :=
  (l.map Prod.snd).filter (fun t => !t.completed)

/-- The markdown task loop emits exactly the filtered tasks, in order, and
its `has_tasks` flag is true iff the filtered list is nonempty. -/
theorem task_loop_eq (l : List (Nat × Task)) (f : Option Bool) :
    task_loop l f =
      match lines_of ((l.map Prod.snd).filter (matchesF f)) with
      | none => none
      | some lines => some (concat_bytes lines, !((l.map Prod.snd).filter (matchesF f)).isEmpty) := by
  induction l with
  | nil => rfl
  | cons p rest ih =>
    obtain ⟨k, t⟩ := p
    cases hm : matchesF f t with
    | false =>
      simp only [task_loop, hm, Bool.false_eq_true, if_false, List.map_cons, List.filter_cons,
        ih]
    | true =>
      simp only [task_loop, hm, if_true, List.map_cons, List.filter_cons]
      cases hl : task_line t with
      | none =>
        simp only [lines_of, hl]
      | some line =>
        rw [ih]
        cases hrest : lines_of ((rest.map Prod.snd).filter (matchesF f)) with
        | none => simp [lines_of, hl, hrest]
        | some ls => simp [lines_of, hl, hrest, concat_bytes]

/-- Every task whose line was successfully rendered has a description
that fits the 256-byte buffer. -/
theorem lines_of_desc_le (ts : List Task) (h : (lines_of ts).isSome = true) :
    ∀ t ∈ ts, t.description.length ≤ 256 := by
  induction ts with
  | nil => intro t ht; cases ht
  | cons t0 rest ih =>
    intro t ht
    cases hl : task_line t0 with
    | none => rw [lines_of, hl] at h; simp at h
    | some line =>
      cases hrest : lines_of rest with
      | none => rw [lines_of, hl, hrest] at h; simp at h
      | some ls =>
        rcases List.mem_cons.mp ht with rfl | ht'
        · have hss : (string_to_bytes t.description).isSome = true := by
            cases hs : string_to_bytes t.description
            · rw [task_line, hs] at hl; cases hl
            · rfl
          rw [string_to_bytes] at hss
          by_cases hlen : t.description.length ≤ 256
          · exact hlen
          · rw [if_neg hlen] at hss; cases hss
        · exact ih (by rw [hrest]; rfl) t ht'

/-! ### Shared concrete states for witnesses and counterexamples -/

/-- Storage after one `add_task("X")` by account 0 from empty storage. -/
def stX : Storage :=
  { tasks := [(0, [(1, { id := 1, description := bs "X", completed := false, owner := 0 })])],
    nextIds := [(0, 2)], userCount := 1, totalTasks := 1, hasFlags := [(0, true)] }

/-! ### Claims -/

/-- C1: for every sequence of `add_task` / `delete_task` / `complete_task`
calls by any accounts (authorized or not), the stored `total_tasks`
counter equals the sum over all accounts of the size of that account's
task collection at every point between calls. -/
theorem c1_total_tasks_invariant (auth : Address → Bool) (tr : List Call) :
    (runTrace auth tr).totalTasks = sumSizes (runTrace auth tr).tasks :=
  (inv_runTrace auth tr).1

/-- C2: in `add_task`, `complete_task` and `delete_task` the
authentication check runs before any storage write; when it fails the
call aborts (`none`) and the step semantics leave every stored value
unchanged. -/
theorem c2_auth_before_writes (auth : Address → Bool) (d : Str) (i : Nat) (c : Address)
    (st : Storage) (h : auth c = false) :
    add_task auth d c st = none ∧ complete_task auth i c st = none ∧
    delete_task auth i c st = none ∧
    step auth st (Call.add d c) = st ∧ step auth st (Call.complete i c) = st ∧
    step auth st (Call.delete i c) = st := by
  simp [add_task, complete_task, delete_task, step, h]

theorem c2_auth_before_writes_witness :
    add_task (fun _ => false) (bs "X") 0 initStorage = none ∧
    complete_task (fun _ => false) 1 0 initStorage = none ∧
    delete_task (fun _ => false) 1 0 initStorage = none ∧
    step (fun _ => false) initStorage (Call.add (bs "X") 0) = initStorage ∧
    step (fun _ => false) initStorage (Call.complete 1 0) = initStorage ∧
    step (fun _ => false) initStorage (Call.delete 1 0) = initStorage :=
  c2_auth_before_writes (fun _ => false) (bs "X") 1 0 initStorage rfl

/-- C3: a successful `add_task` increments `user_count` by exactly 1 when
the caller's `has_tasks` flag was unset, leaves it unchanged otherwise,
and `user_count` never decreases across any call. -/
theorem c3_user_count (auth : Address → Bool) (d : Str) (A : Address) (st : Storage)
    (h : auth A = true) :
    (∀ id st', add_task auth d A st = some (id, st') →
      (hasTasksOf st A = false → st'.userCount = st.userCount + 1) ∧
      (hasTasksOf st A = true → st'.userCount = st.userCount)) ∧
    (∀ (st2 : Storage) (c : Call), st2.userCount ≤ (step auth st2 c).userCount) := by
  constructor
  · intro id st' he
    obtain ⟨st'', heq, _, _, _, huc, _⟩ := add_task_spec auth d A st h
    rw [heq] at he
    simp only [Option.some.injEq, Prod.mk.injEq] at he
    obtain ⟨-, hst⟩ := he
    subst hst
    constructor
    · intro hf; rw [huc, hf]; rfl
    · intro hf; rw [huc, hf]; rfl
  · intro st2 c
    cases c with
    | add d' c' =>
      cases ha : auth c' with
      | false => simp [step, add_task, ha]
      | true =>
        obtain ⟨st'', heq, _, _, _, huc, _⟩ := add_task_spec auth d' c' st2 ha
        have hstep : step auth st2 (Call.add d' c') = st'' := by simp [step, heq]
        rw [hstep, huc]
        cases hasTasksOf st2 c' <;> simp
    | complete i c' =>
      cases ha : auth c' with
      | false => simp [step, complete_task, ha]
      | true =>
        cases hg : mapGet (tasksOf st2 c') i with
        | none => simp [step, complete_task, ha, hg]
        | some t => simp [step, complete_task, ha, hg]
    | delete i c' =>
      cases ha : auth c' with
      | false => simp [step, delete_task, ha]
      | true =>
        cases hg : (mapGet (tasksOf st2 c') i).isSome with
        | false => simp [step, delete_task, ha, hg]
        | true =>
          simp only [step, delete_task, ha, if_true, hg]
          split <;> simp

theorem c3_user_count_witness : stX.userCount = initStorage.userCount + 1 :=
  ((c3_user_count (fun _ => true) (bs "X") 0 initStorage rfl).1 1 stX (by decide)).1 rfl

/-- C4: for an authenticated caller and an id absent from the caller's
collection, `complete_task` and `delete_task` succeed without touching
storage: the whole state (collections and all counters) is returned
unchanged. -/
theorem c4_missing_id_noop (auth : Address → Bool) (i : Nat) (c : Address) (st : Storage)
    (h1 : auth c = true) (h2 : mapGet (tasksOf st c) i = none) :
    complete_task auth i c st = some ((), st) ∧ delete_task auth i c st = some ((), st) := by
  constructor
  · simp [complete_task, h1, h2]
  · simp [delete_task, h1, h2]

theorem c4_missing_id_noop_witness :
    complete_task (fun _ => true) 5 0 initStorage = some ((), initStorage) ∧
    delete_task (fun _ => true) 5 0 initStorage = some ((), initStorage) :=
  c4_missing_id_noop (fun _ => true) 5 0 initStorage rfl rfl

/-- C5: after a successful `add_task(X, A)`, `get_task` with the returned
id and account `A` yields exactly the stored task: description `X`,
`completed = false`, owner `A`. -/
theorem c5_add_get_roundtrip (auth : Address → Bool) (d : Str) (A : Address) (st : Storage)
    (id : Nat) (st' : Storage) (h1 : auth A = true)
    (h2 : add_task auth d A st = some (id, st')) :
    get_task st' id A = some { id := id, description := d, completed := false, owner := A } := by
  obtain ⟨st'', heq, htasks, _, _, _, _⟩ := add_task_spec auth d A st h1
  rw [heq] at h2
  simp only [Option.some.injEq, Prod.mk.injEq] at h2
  obtain ⟨hid, hst⟩ := h2
  subst hst
  subst hid
  unfold get_task tasksOf
  rw [htasks, alookup_aset_self]
  simp only [Option.getD_some]
  exact mapGet_mapSet_self _ _ _

theorem c5_add_get_roundtrip_witness :
    get_task stX 1 0 = some { id := 1, description := bs "X", completed := false, owner := 0 } :=
  c5_add_get_roundtrip (fun _ => true) (bs "X") 0 initStorage 1 stX rfl (by decide)

/-- C7: the `/tasks/pending` and `/pending` routes dispatch identically,
and the markdown task loop under the pending filter emits exactly the
viewer's incomplete tasks (in order), nothing else. -/
theorem c7_pending_routes_agree :
    (∀ (st : Storage) (v : Option Address),
      render st (some (bs "/tasks/pending")) v = render st (some (bs "/pending")) v) ∧
    (∀ l : List (Nat × Task), task_loop l (some false) =
      match lines_of (pending_tasks l) with
      | none => none
      | some lines => some (concat_bytes lines, !(pending_tasks l).isEmpty)) := by
  constructor
  · intro st v
    rfl
  · intro l
    have hfe : (l.map Prod.snd).filter (matchesF (some false)) = pending_tasks l := by
      unfold pending_tasks
      apply List.filter_congr
      intro t _
      simp [matchesF]
    rw [task_loop_eq, hfe]

/-- Per-byte escaping rule as the spec states it: a double quote becomes
backslash-quote, a backslash doubles, newline, carriage return and tab
become their two-byte escapes, every other byte is emitted unchanged. -/
def escape_spec_byte (b : Nat) : List Nat :=
  if b = 34 then [92, 34]
  else if b = 92 then [92, 92]
  else if b = 10 then [92, 110]
  else if b = 13 then [92, 114]
  else if b = 9 then [92, 116]
  else [b]

/-- C8: the JSON serializer's escape loop realizes exactly the per-byte
escaping map of the spec on every input byte string. -/
theorem c8_escape_json_spec (l : List Nat) :
    escape_loop l = l.flatMap escape_spec_byte := by
  induction l with
  | nil => rfl
  | cons b rest ih =>
    simp only [escape_loop, List.flatMap_cons, ih, escape_spec_byte]

/-- Task with a description longer than the 256-byte buffer. -/
def tLong : Task :=
  { id := 1, description := List.replicate 257 97, completed := false, owner := 0 }

/-- Storage in which account 0 owns the oversized task. -/
def stLong : Storage :=
  { tasks := [(0, [(1, tLong)])], nextIds := [(0, 2)], userCount := 1, totalTasks := 1,
    hasFlags := [(0, true)] }

/-- Task with a short description, for the success side. -/
def tShort : Task := { id := 1, description := bs "ok", completed := false, owner := 0 }

/-- C10: a connected task-list render succeeds only when every task that
the filter serializes has a description of at most 256 bytes, and a
render of `/tasks` for a viewer owning a 257-byte description aborts
instead of returning output. -/
theorem c10_description_bound :
    (∀ (m : List (Nat × Task)) (f : Option Bool),
      (render_task_list m f true).isSome = true →
      ∀ t ∈ (m.map Prod.snd).filter (matchesF f), t.description.length ≤ 256) ∧
    render stLong (some (bs "/tasks")) (some 0) = none := by
  constructor
  · intro m f h t ht
    have hsome : (task_loop m f).isSome = true := by
      cases hl : task_loop m f with
      | none => rw [render_task_list, if_pos rfl, hl] at h; cases h
      | some pr => rfl
    rw [task_loop_eq] at hsome
    cases hlo : lines_of ((m.map Prod.snd).filter (matchesF f)) with
    | none => rw [hlo] at hsome; cases hsome
    | some lines => exact lines_of_desc_le _ (by rw [hlo]; rfl) t ht
  · rfl

theorem c10_description_bound_witness : tShort.description.length ≤ 256 :=
  c10_description_bound.1 [(1, tShort)] none (by decide) tShort (by decide)

/-- A path short enough for the 256-byte buffer passes through unchanged. -/
theorem path_to_bytes_le (p : List Nat) (h : p.length ≤ 256) :
    path_to_bytes (some p) = some p := by
  show (if p.length ≤ 256 then some p else none : Option (List Nat)) = some p
  rw [if_pos h]

/-- Account 0's task number 1. -/
def t6a : Task := { id := 1, description := bs "alpha", completed := false, owner := 0 }

/-- Account 0's task number 12. -/
def t6b : Task := { id := 12, description := bs "beta", completed := false, owner := 0 }

/-- A collection holding tasks 1 and 12. -/
def m6 : List (Nat × Task) := [(1, t6a), (12, t6b)]

/-- Storage in which account 0 owns tasks 1 and 12. -/
def st6 : Storage :=
  { tasks := [(0, m6)], nextIds := [(0, 13)], userCount := 1, totalTasks := 2,
    hasFlags := [(0, true)] }

/-- C6 counterexample: the route handler reads only the first byte after
"/task/", so `render(Some("/task/12"), viewer)` shows the detail view of
task 1, which differs from the detail view of task 12. -/
theorem c6_whole_segment_counterexample :
    render st6 (some (bs "/task/12")) (some 0) = render_single_task m6 1 ∧
    render_single_task m6 1 ≠ render_single_task m6 12 :=
  ⟨rfl, by decide⟩

/-- C6 (amended): for every path "/task/" followed by a byte sequence
starting with an ASCII digit (and fitting the path buffer), `render`
dispatches to the single-task detail view for the id equal to that one
digit; the remainder of the segment is ignored. -/
theorem c6_task_route_first_digit (st : Storage) (v : Option Address) (d : Nat)
    (rest : List Nat) (h1 : 48 ≤ d) (h2 : d ≤ 57) (h3 : rest.length ≤ 249) :
    render st (some (bs "/task/" ++ d :: rest)) v =
      render_single_task (viewer_tasks st v) (d - 48) := by
  have hbs : bs "/task/" = [47, 116, 97, 115, 107, 47] := by decide
  rw [hbs]
  have hlist : ([47, 116, 97, 115, 107, 47] : List Nat) ++ d :: rest =
      47 :: 116 :: 97 :: 115 :: 107 :: 47 :: d :: rest := rfl
  rw [hlist]
  have hlen : (47 :: 116 :: 97 :: 115 :: 107 :: 47 :: d :: rest : List Nat).length ≤ 256 := by
    simp only [List.length_cons]
    omega
  have hjson : isJsonPath (47 :: 116 :: 97 :: 115 :: 107 :: 47 :: d :: rest) = false := by
    unfold isJsonPath
    rw [decide_eq_false_iff_not]
    intro hcon
    have ht5 : (47 :: 116 :: 97 :: 115 :: 107 :: 47 :: d :: rest : List Nat).take 5 =
        [47, 116, 97, 115, 107] := rfl
    rw [ht5] at hcon
    exact absurd hcon.2 (by decide)
  have htask : isTaskIdPath (47 :: 116 :: 97 :: 115 :: 107 :: 47 :: d :: rest) = true := by
    unfold isTaskIdPath
    rw [decide_eq_true_eq]
    refine ⟨?_, rfl, ?_, ?_⟩
    · simp only [List.length_cons]
      omega
    · exact h1
    · exact h2
  have hne1 : ¬((47 :: 116 :: 97 :: 115 :: 107 :: 47 :: d :: rest : List Nat) = bs "/") := by
    intro hcon
    rw [show bs "/" = [47] from by decide] at hcon
    simp at hcon
  have hne2 : ¬((47 :: 116 :: 97 :: 115 :: 107 :: 47 :: d :: rest : List Nat) = bs "/about") := by
    intro hcon
    rw [show bs "/about" = [47, 97, 98, 111, 117, 116] from by decide] at hcon
    simp at hcon
  have hne3 : ¬((47 :: 116 :: 97 :: 115 :: 107 :: 47 :: d :: rest : List Nat) = bs "/tasks") := by
    intro hcon
    rw [show bs "/tasks" = [47, 116, 97, 115, 107, 115] from by decide] at hcon
    simp at hcon
  have hne4 : ¬((47 :: 116 :: 97 :: 115 :: 107 :: 47 :: d :: rest : List Nat) = bs "/tasks/pending") := by
    intro hcon
    rw [show bs "/tasks/pending" = [47, 116, 97, 115, 107, 115, 47, 112, 101, 110, 100, 105, 110, 103] from by decide] at hcon
    simp at hcon
  have hne5 : ¬((47 :: 116 :: 97 :: 115 :: 107 :: 47 :: d :: rest : List Nat) = bs "/pending") := by
    intro hcon
    rw [show bs "/pending" = [47, 112, 101, 110, 100, 105, 110, 103] from by decide] at hcon
    simp at hcon
  have hne6 : ¬((47 :: 116 :: 97 :: 115 :: 107 :: 47 :: d :: rest : List Nat) = bs "/tasks/completed") := by
    intro hcon
    rw [show bs "/tasks/completed" = [47, 116, 97, 115, 107, 115, 47, 99, 111, 109, 112, 108, 101, 116, 101, 100] from by decide] at hcon
    simp at hcon
  have hne7 : ¬((47 :: 116 :: 97 :: 115 :: 107 :: 47 :: d :: rest : List Nat) = bs "/completed") := by
    intro hcon
    rw [show bs "/completed" = [47, 99, 111, 109, 112, 108, 101, 116, 101, 100] from by decide] at hcon
    simp at hcon
  unfold render
  simp only [path_to_bytes_le _ hlen]
  simp only [hjson, Bool.false_eq_true, if_false]
  rw [if_neg hne1, if_neg hne2, if_neg hne3, if_neg (not_or.mpr ⟨hne4, hne5⟩),
    if_neg (not_or.mpr ⟨hne6, hne7⟩)]
  simp only [htask, if_true]
  rfl

theorem c6_task_route_first_digit_witness :
    render st6 (some (bs "/task/" ++ 49 :: [50])) (some 0) =
      render_single_task (viewer_tasks st6 (some 0)) (49 - 48) :=
  c6_task_route_first_digit st6 (some 0) 49 [50] (by decide) (by decide) (by decide)

/-- A 257-byte path: it overflows the 256-byte buffer in
`string_to_bytes`, so `render` aborts on it. -/
def longPath : List Nat := List.replicate 257 97

/-- C9 counterexample: a path matching no registered route pattern on
which `render` does not produce the home view but aborts (the path is one
byte longer than the conversion buffer). -/
theorem c9_long_path_counterexample :
    routeMatches longPath = false ∧
    render initStorage (some longPath) none = none ∧
    (render initStorage (some (bs "/")) none).isSome = true :=
  ⟨by decide, rfl, by decide⟩

/-- C9 (amended): every path that fits the 256-byte buffer and matches
none of the registered route patterns falls through to the default
handler and yields exactly the home view, i.e. the same output as
rendering "/". -/
theorem c9_unmatched_path_home (st : Storage) (v : Option Address) (p : List Nat)
    (h1 : p.length ≤ 256) (h2 : routeMatches p = false) :
    render st (some p) v = render st (some (bs "/")) v := by
  simp only [routeMatches, Bool.or_eq_false_iff, decide_eq_false_iff_not] at h2
  obtain ⟨⟨⟨⟨⟨⟨⟨⟨hj, hs⟩, ha⟩, ht⟩, htp⟩, hp⟩, htc⟩, hc⟩, hti⟩ := h2
  have hrhs : render st (some (bs "/")) v = some (render_home v.isSome) := rfl
  rw [hrhs]
  unfold render
  simp only [path_to_bytes_le p h1]
  simp only [hj, hti, Bool.false_eq_true, if_false]
  rw [if_neg hs, if_neg ha, if_neg ht, if_neg (not_or.mpr ⟨htp, hp⟩),
    if_neg (not_or.mpr ⟨htc, hc⟩)]

theorem c9_unmatched_path_home_witness :
    render initStorage (some (bs "/nope")) none = render initStorage (some (bs "/")) none :=
  c9_unmatched_path_home initStorage none (bs "/nope") (by decide) (by decide)

end Todo
